import Mathlib

/-!
Verification of the Veritas receipt witnessing & settlement subsystem.

Shallow embedding of:
  - the HTTP server core (`src/http-server.ts`): in-memory pending/settled
    receipt maps, `witnessDecision`, `verifyReceipt`, `settleReceipts`,
    the `/witness` request handler, and the `setInterval` settlement loop;
  - the Arweave settlement module (`src/arweave-settler.ts`):
    `settleToArweave` with its three configuration branches, the batch
    payload construction, and the 32-bit `hashString` digest;
  - the AO ledger process (`src/lua/veritas-process.lua`): `State`, the
    `StoreReceipts`, `Freeze`, `Unfreeze` mutating handlers and the
    read-only query handlers.

JS `Map` objects and the Lua receipt table are embedded as association
lists with a lookup function `mlookup`; `Map.set`/`Map.delete` become
`mapSet`/`mapDelete`.  External cryptography (SHA-256, the ECDSA keypair)
is abstracted: the digest is an arbitrary function of the exact record of
fields that the source serializes, and the signer is a pair of functions
`sign`/`verify`; keypair correctness (`verify h (sign h) = true`) enters
theorems as an explicit hypothesis.
-/

set_option maxRecDepth 8192

namespace Veritas

/-- Association-list lookup, modelling `Map.get` (JS) and table indexing (Lua). -/
def mlookup {α : Type} (m : List (String × α)) (k : String) : Option α :=
  match m with
  | [] => none
  | (q, v) :: rest => if q = k then some v else mlookup rest k

/-- `Map.set`: replace the entry in place if the key exists, else append. -/
def mapSet {α : Type} (m : List (String × α)) (k : String) (v : α) : List (String × α) :=
  match m with
  | [] => [(k, v)]
  | (q, w) :: rest => if q = k then (k, v) :: rest else (q, w) :: mapSet rest k v

/-- `Map.delete`: remove the entry with the given key. -/
def mapDelete {α : Type} (m : List (String × α)) (k : String) : List (String × α) :=
  match m with
  | [] => []
  | (q, w) :: rest => if q = k then mapDelete rest k else (q, w) :: mapDelete rest k

/-- Receipt status: the `"pending" | "settled" | "failed"` union type. -/
inductive Status where
  | pending
  | settled
  | failed
deriving Repr, DecidableEq

/-- `WitnessRequest`: caller-supplied decision record (`context`, `logic`,
`action` strings, optional `agent_id`), as consumed by `witnessDecision`. -/
structure WitnessRequest where
  context : String
  logic : String
  action : String
  agent_id : Option String
deriving Repr, DecidableEq

/-- `WitnessReceipt`: the public receipt view returned to the caller. -/
structure WitnessReceipt where
  receipt_id : String
  signature : String
  timestamp_ms : Nat
  hash : String
  arweave_tx : Option String
  status : Status
deriving Repr, DecidableEq

/-- `PendingReceipt extends WitnessReceipt`: keeps the full decision payload
for later submission to the ledger. -/
structure PendingReceipt extends WitnessReceipt where
  full_payload : WitnessRequest
deriving Repr, DecidableEq

/-- The HTTP server state: the two receipt maps
`pendingReceipts` and `settledReceipts`. -/
structure ServerState where
  pendingReceipts : List (String × PendingReceipt)
  settledReceipts : List (String × WitnessReceipt)
deriving Repr, DecidableEq

/-- The empty initial server state (both maps start as `new Map()`). -/
def initialServerState : ServerState := ⟨[], []⟩

/-- JS `x || null` on an optional string field: `undefined` and `""` both
collapse to `null`. -/
def jsOrNull (o : Option String) : Option String :=
  match o with
  | none => none
  | some s => if s.isEmpty then none else some s

/-- The exact record of fields that `hashWitnessRequest` serializes with
`JSON.stringify` before hashing. -/
structure HashPayload where
  context : String
  logic : String
  action : String
  agent_id : Option String
  timestamp_ms : Nat
deriving Repr, DecidableEq

/-- `hashWitnessRequest`: sha256 hex digest of the canonical JSON payload
`{context, logic, action, agent_id || null, timestamp_ms}`.  The composite
of JSON serialization and SHA-256 is abstracted as `digest`, a function of
exactly the serialized fields. -/
def hashWitnessRequest (digest : HashPayload → String) (r : WitnessRequest)
    (timestamp_ms : Nat) : String :=
  digest { context := r.context, logic := r.logic, action := r.action,
           agent_id := jsOrNull r.agent_id, timestamp_ms := timestamp_ms }

/-- `generateReceiptId`: the `vts_` tag followed by the first 16 characters
of the hex hash (`hash.substring(0, 16)`). -/
def generateReceiptId (hash : String) : String :=
  "vts_" ++ hash.take 16

/-- The process keypair held in memory: `signHash` and `verifySignature`
(Node `crypto` ECDSA), abstracted as a pair of functions. -/
structure Signer where
  sign : String → String
  verify : String → String → Bool

/-- `witnessDecision`: capture the time, hash the payload, derive the id,
sign the hash, store the pending receipt, return the public receipt. -/
def witnessDecision (digest : HashPayload → String) (S : Signer) (now : Nat)
    (request : WitnessRequest) (st : ServerState) : WitnessReceipt × ServerState :=
  let hash := hashWitnessRequest digest request now
  let receipt_id := generateReceiptId hash
  let signature := S.sign hash
  let receipt : WitnessReceipt :=
    { receipt_id := receipt_id, signature := signature, timestamp_ms := now,
      hash := hash, arweave_tx := none, status := Status.pending }
  let pendingReceipt : PendingReceipt :=
    { toWitnessReceipt := receipt, full_payload := request }
  (receipt, { st with
    pendingReceipts := mapSet st.pendingReceipts receipt_id pendingReceipt })

/-- The result record of `verifyReceipt`. -/
structure VerifyResult where
  valid : Bool
  receipt : Option WitnessReceipt
  message : String
deriving Repr, DecidableEq

/-- `verifyReceipt`: look in the settled map first, then the pending map,
re-check the signature; unknown ids report `"Receipt not found"`.  The
returned state component witnesses that the function mutates neither map. -/
def verifyReceipt (S : Signer) (st : ServerState) (receipt_id : String) :
    VerifyResult × ServerState :=
  match mlookup st.settledReceipts receipt_id with
  | some settled =>
      let valid := S.verify settled.hash settled.signature
      (⟨valid, some settled,
        if valid then "Receipt verified and settled" else "Invalid signature"⟩, st)
  | none =>
    match mlookup st.pendingReceipts receipt_id with
    | some pending =>
        let valid := S.verify pending.hash pending.signature
        (⟨valid, some pending.toWitnessReceipt,
          if valid then "Receipt verified, settlement pending" else "Invalid signature"⟩, st)
    | none => (⟨false, none, "Receipt not found"⟩, st)

/-! ### Arweave settlement module (`arweave-settler.ts`) -/

/-- One element of the `SettlementResult[]` array. -/
structure SettlementResult where
  receipt_id : String
  arweave_tx : Option String
  ao_message_id : Option String
  status : Status
  error : Option String
deriving Repr, DecidableEq

/-- Settler configuration: `VERITAS_PROCESS_ID` (`DEFAULT_PROCESS_ID`) and
the wallet found by `loadWallet`, each possibly absent. -/
structure SettlerConfig where
  processId : Option String
  wallet : Option String
deriving Repr, DecidableEq

/-- Outcome of the `message`/`result` round-trip to AO: either a message id
or a thrown error (the `catch` branch). -/
inductive LedgerOutcome where
  | ok (messageId : String)
  | err (errorMessage : String)
deriving Repr, DecidableEq

/-- 32-bit wrap-around to a signed JS `Int32` (the effect of `| 0`-style
bitwise coercion, here `hash & hash` and `<< 5`). -/
def toInt32 (n : Int) : Int :=
  (n + 2 ^ 31) % 2 ^ 32 - 2 ^ 31

/-- One step of `hashString`: `hash = ((hash << 5) - hash) + char` followed
by the `hash & hash` truncation to a signed 32-bit integer. -/
def hashStringStep (h : Int) (c : Char) : Int :=
  toInt32 (toInt32 (h * 32) - h + c.toNat)

/-- `hashString`: the dependency-free 32-bit string digest used to forward a
privacy-preserving fingerprint of `context`; `Math.abs(hash).toString(16)`. -/
def hashString (s : String) : String :=
  let h := s.data.foldl hashStringStep 0
  ⟨Nat.toDigits 16 h.natAbs⟩

/-- The per-receipt summary placed in the batch payload sent to the AO
process: digest of `context`, 200-character prefix of `logic`, full
`action`, `agent_id || null`.  The raw `context` and full `logic` have no
field in this record. -/
structure LedgerEntry where
  receipt_id : String
  hash : String
  signature : String
  timestamp_ms : Nat
  context_hash : String
  logic_summary : String
  action : String
  agent_id : Option String
deriving Repr, DecidableEq

/-- The mapping applied to each receipt when building `batchPayload.receipts`. -/
def ledgerEntryOfReceipt (r : PendingReceipt) : LedgerEntry :=
  { receipt_id := r.receipt_id
    hash := r.hash
    signature := r.signature
    timestamp_ms := r.timestamp_ms
    context_hash := hashString r.full_payload.context
    logic_summary := r.full_payload.logic.take 200
    action := r.full_payload.action
    agent_id := jsOrNull r.full_payload.agent_id }

/-- The `batchPayload` object: `type`, `count`, per-receipt summaries,
`settled_at`. -/
structure BatchPayload where
  payloadType : String
  count : Nat
  receipts : List LedgerEntry
  settled_at : Nat
deriving Repr, DecidableEq

/-- `batchPayload` construction inside `settleToArweave`. -/
def batchPayloadFor (now : Nat) (receipts : List PendingReceipt) : BatchPayload :=
  { payloadType := "VeritasReceiptBatch"
    count := receipts.length
    receipts := receipts.map ledgerEntryOfReceipt
    settled_at := now }

/-- `settleToArweave`: the three configuration branches of the settler.
No process configured: simulated per-receipt success (`sim_` transaction
ids), nothing submitted.  No wallet: per-receipt failure with error
`"No wallet configured"`, nothing submitted.  Otherwise the batch payload
is submitted and one `message`/`result` outcome applies to every receipt:
success gives each receipt `arweave_tx = messageId`, a thrown error gives
each receipt a failed result.  The second component is the payload
actually submitted to the ledger, `none` when nothing was sent. -/
def settleToArweave (cfg : SettlerConfig) (now : Nat) (outcome : LedgerOutcome)
    (receipts : List PendingReceipt) : List SettlementResult × Option BatchPayload :=
  match cfg.processId with
  | none =>
      (receipts.map (fun r =>
        { receipt_id := r.receipt_id
          arweave_tx := some ("sim_" ++ toString now ++ "_" ++ r.receipt_id)
          ao_message_id := some ("sim_msg_" ++ toString now)
          status := Status.settled
          error := none }), none)
  | some _ =>
    match cfg.wallet with
    | none =>
        (receipts.map (fun r =>
          { receipt_id := r.receipt_id
            arweave_tx := none
            ao_message_id := none
            status := Status.failed
            error := some "No wallet configured" }), none)
    | some _ =>
      let payload := batchPayloadFor now receipts
      match outcome with
      | LedgerOutcome.ok messageId =>
          (receipts.map (fun r =>
            { receipt_id := r.receipt_id
              arweave_tx := some messageId
              ao_message_id := some messageId
              status := Status.settled
              error := none }), some payload)
      | LedgerOutcome.err e =>
          (receipts.map (fun r =>
            { receipt_id := r.receipt_id
              arweave_tx := none
              ao_message_id := none
              status := Status.failed
              error := some e }), some payload)

/-- The settled view built in `settleReceipts` when a result reports
`"settled"`: every field of the pending receipt except the dropped
`full_payload`, with the result transaction id and status `settled`. -/
def settledView (pending : PendingReceipt) (tx : Option String) : WitnessReceipt :=
  { receipt_id := pending.receipt_id
    signature := pending.signature
    timestamp_ms := pending.timestamp_ms
    hash := pending.hash
    arweave_tx := tx
    status := Status.settled }

/-- The per-result body of the loop in `settleReceipts`: look the result id
up in the pending map; on a settled result move the receipt to the settled
map, otherwise keep it in the pending map for retry on the next interval. -/
def applyResult (st : ServerState) (result : SettlementResult) : ServerState :=
  match mlookup st.pendingReceipts result.receipt_id with
  | none => st
  | some pending =>
    if result.status = Status.settled then
      { st with
        settledReceipts :=
          mapSet st.settledReceipts result.receipt_id (settledView pending result.arweave_tx)
        pendingReceipts := mapDelete st.pendingReceipts result.receipt_id }
    else st

/-- `settleReceipts`: one settlement tick.  Empty pending map: return at
once.  Otherwise snapshot the pending receipts, call `settleToArweave`,
and apply each result in order. -/
def settleReceipts (cfg : SettlerConfig) (now : Nat) (outcome : LedgerOutcome)
    (st : ServerState) : ServerState :=
  if st.pendingReceipts.isEmpty then st
  else
    let batch := st.pendingReceipts.map Prod.snd
    ((settleToArweave cfg now outcome batch).1).foldl applyResult st

/-! ### The `/witness` route of `handleRequest` -/

/-- The raw JSON body cast to `WitnessRequest`: each required field may be
absent (`none`) or present (possibly empty). -/
structure WitnessBody where
  context : Option String
  logic : Option String
  action : Option String
  agent_id : Option String
deriving Repr, DecidableEq

/-- JS truthiness of an optional string: `undefined` and `""` are falsy. -/
def jsTruthy (o : Option String) : Bool :=
  match o with
  | none => false
  | some s => !s.isEmpty

/-- Response of the `/witness` route. -/
inductive WitnessResponse where
  | badRequest (error : String)
  | ok (receipt : WitnessReceipt)
deriving Repr, DecidableEq

/-- The `/witness` branch of `handleRequest`: reject with a 400 validation
error when `context`, `logic` or `action` is missing or empty, before any
hashing or signing; otherwise call `witnessDecision`. -/
def handleWitness (digest : HashPayload → String) (S : Signer) (now : Nat)
    (body : WitnessBody) (st : ServerState) : WitnessResponse × ServerState :=
  if !jsTruthy body.context || !jsTruthy body.logic || !jsTruthy body.action then
    (WitnessResponse.badRequest "Missing required fields: context, logic, action", st)
  else
    let request : WitnessRequest :=
      { context := body.context.getD "", logic := body.logic.getD "",
        action := body.action.getD "", agent_id := body.agent_id }
    let out := witnessDecision digest S now request st
    (WitnessResponse.ok out.1, out.2)

/-! ### Settlement interval loop (`setInterval` at the bottom of the server)

The event loop is modelled explicitly to reason about overlap of ticks.
A started `settleReceipts` call runs synchronously up to its first
`await settleToArweave(batch)`: it re-checks that the pending map is
non-empty and takes the batch snapshot.  The suspended call is recorded in
`inFlight` together with its snapshot; completing it computes the settler
results for that snapshot and applies them to the then-current state. -/

/-- Event-loop state: the server maps plus the snapshots of every
`settleReceipts` execution currently suspended at its `await`. -/
structure LoopState where
  server : ServerState
  inFlight : List (List PendingReceipt)
deriving Repr, DecidableEq

/-- The initial loop state: empty maps, nothing in flight. -/
def initialLoopState : LoopState := ⟨initialServerState, []⟩

/-- Events the event loop can process: a `/witness` insert, the interval
timer firing, or a suspended tick resuming with its ledger outcome. -/
inductive LoopEvent where
  | witness (now : Nat) (request : WitnessRequest)
  | timerFire
  | tickComplete (now : Nat) (outcome : LedgerOutcome)
deriving Repr, DecidableEq

/-- One event-loop step.  `timerFire` is the `setInterval` callback: it
skips when the pending map is empty (`if (pendingReceipts.size > 0)`,
re-checked by `settleReceipts` itself) and otherwise starts a
`settleReceipts` execution — snapshotting the pending values — with no
check of whether an earlier execution is still in flight.  `tickComplete`
resumes the oldest suspended execution past its `await` and applies its
results. -/
def loopStep (cfg : SettlerConfig) (digest : HashPayload → String) (S : Signer)
    (st : LoopState) (e : LoopEvent) : LoopState :=
  match e with
  | LoopEvent.witness now r =>
      { st with server := (witnessDecision digest S now r st.server).2 }
  | LoopEvent.timerFire =>
      if st.server.pendingReceipts.isEmpty then st
      else { st with inFlight := st.inFlight ++ [st.server.pendingReceipts.map Prod.snd] }
  | LoopEvent.tickComplete now outcome =>
      match st.inFlight with
      | [] => st
      | batch :: rest =>
          { server := ((settleToArweave cfg now outcome batch).1).foldl applyResult st.server
            inFlight := rest }

/-- Run the event loop over a list of events from a given state. -/
def runLoop (cfg : SettlerConfig) (digest : HashPayload → String) (S : Signer)
    (st : LoopState) (es : List LoopEvent) : LoopState :=
  es.foldl (loopStep cfg digest S) st

/-! ### AO ledger process (`src/lua/veritas-process.lua`) -/

/-- One element of the incoming `data.receipts` array of a `StoreReceipts`
message: every field of the decoded JSON may be absent. -/
structure IncomingReceipt where
  receipt_id : Option String
  hash : Option String
  signature : Option String
  timestamp_ms : Option Nat
  context_hash : Option String
  logic_summary : Option String
  action : Option String
  agent_id : Option String
deriving Repr, DecidableEq

/-- The record stored in `State.Receipts[receipt_id]`. -/
structure StoredReceipt where
  receipt_id : String
  hash : Option String
  signature : Option String
  timestamp_ms : Option Nat
  context_hash : Option String
  logic_summary : Option String
  action : Option String
  agent_id : Option String
  stored_at : Nat
  message_id : String
deriving Repr, DecidableEq

/-- The Lua process `State`. -/
structure LuaState where
  Receipts : List (String × StoredReceipt)
  ReceiptCount : Nat
  Owner : String
  Frozen : Bool
deriving Repr, DecidableEq

/-- The state installed on first load: empty receipt table, count zero,
owner from the spawn environment, not frozen. -/
def initialLuaState (owner : String) : LuaState :=
  { Receipts := [], ReceiptCount := 0, Owner := owner, Frozen := false }

/-- An AO message as seen by the handlers.  `parse_data` returning `nil`
and a decoded object without a `receipts` field both appear as
`receipts = none`; the `Receipt-Id` tag / data fallback chain of the query
handlers is collapsed into `receiptIdArg`. -/
structure LuaMsg where
  From : Option String
  Timestamp : Nat
  Id : String
  receipts : Option (List IncomingReceipt)
  receiptIdArg : Option String
  limitArg : Option Nat
deriving Repr, DecidableEq

/-- `is_owner`: `msg.From and msg.From == State.Owner`. -/
def isOwner (sender : Option String) (st : LuaState) : Bool :=
  match sender with
  | none => false
  | some f => f = st.Owner

/-- Replies sent by `send_reply` (action name and data, by constructor). -/
inductive LuaReply where
  | err (error : String)
  | receiptsStored (stored_count : Nat) (total_count : Nat)
  | frozenReply (frozen : Bool)
  | receiptReply (receipt : StoredReceipt)
  | notFound (receipt_id : String)
  | receiptList (receipts : List (String × Option Nat × Nat)) (total_count : Nat)
  | verification (receipt_id : Option String) (receiptExists : Bool)
      (stored_at : Option Nat) (message_id : Option String)
  | stats (receipt_count : Nat) (owner : String) (frozen : Bool)
deriving Repr, DecidableEq

/-- The record stored for one incoming receipt. -/
def mkStored (id : String) (r : IncomingReceipt) (ts : Nat) (mid : String) : StoredReceipt :=
  { receipt_id := id
    hash := r.hash
    signature := r.signature
    timestamp_ms := r.timestamp_ms
    context_hash := r.context_hash
    logic_summary := r.logic_summary
    action := r.action
    agent_id := r.agent_id
    stored_at := ts
    message_id := mid }

/-- The body of the `for _, receipt in ipairs(data.receipts)` loop:
receipts without a `receipt_id` and ids already present are skipped, new
ids are inserted and both `ReceiptCount` and the local `stored_count`
are incremented. -/
def storeOne (ts : Nat) (mid : String) (acc : LuaState × Nat)
    (r : IncomingReceipt) : LuaState × Nat :=
  match r.receipt_id with
  | none => acc
  | some id =>
    if (mlookup acc.1.Receipts id).isSome then acc
    else
      ({ acc.1 with
          Receipts := acc.1.Receipts ++ [(id, mkStored id r ts mid)]
          ReceiptCount := acc.1.ReceiptCount + 1 },
       acc.2 + 1)

/-- The `StoreReceipts` handler: frozen check, owner check, payload check,
then the insertion loop, replying `ReceiptsStored` with the batch and
total counts. -/
def storeReceiptsHandler (msg : LuaMsg) (st : LuaState) : LuaState × LuaReply :=
  if st.Frozen then (st, LuaReply.err "Process is frozen")
  else if !isOwner msg.From st then (st, LuaReply.err "Unauthorized: owner only")
  else
    match msg.receipts with
    | none => (st, LuaReply.err "Invalid payload: missing receipts array")
    | some rs =>
        let acc := rs.foldl (storeOne msg.Timestamp msg.Id) (st, 0)
        (acc.1, LuaReply.receiptsStored acc.2 acc.1.ReceiptCount)

/-- The `Freeze` handler: owner only; sets `State.Frozen = true`. -/
def freezeHandler (msg : LuaMsg) (st : LuaState) : LuaState × LuaReply :=
  if !isOwner msg.From st then (st, LuaReply.err "Unauthorized: owner only")
  else ({ st with Frozen := true }, LuaReply.frozenReply true)

/-- The `Unfreeze` handler: owner only; sets `State.Frozen = false`. -/
def unfreezeHandler (msg : LuaMsg) (st : LuaState) : LuaState × LuaReply :=
  if !isOwner msg.From st then (st, LuaReply.err "Unauthorized: owner only")
  else ({ st with Frozen := false }, LuaReply.frozenReply false)

/-- The `GetReceipt` query handler (read-only). -/
def getReceiptHandler (msg : LuaMsg) (st : LuaState) : LuaState × LuaReply :=
  match msg.receiptIdArg with
  | none => (st, LuaReply.err "Missing Receipt-Id")
  | some id =>
    if id.isEmpty then (st, LuaReply.err "Missing Receipt-Id")
    else
      match mlookup st.Receipts id with
      | some r => (st, LuaReply.receiptReply r)
      | none => (st, LuaReply.notFound id)

/-- The `ListReceipts` query handler (read-only): bounded summary listing,
default limit 100. -/
def listReceiptsHandler (msg : LuaMsg) (st : LuaState) : LuaState × LuaReply :=
  let limit := msg.limitArg.getD 100
  let entries := (st.Receipts.take limit).map
    (fun p => (p.1, p.2.timestamp_ms, p.2.stored_at))
  (st, LuaReply.receiptList entries st.ReceiptCount)

/-- The `VerifyReceipt` query handler (read-only). -/
def verifyReceiptHandler (msg : LuaMsg) (st : LuaState) : LuaState × LuaReply :=
  let found := msg.receiptIdArg.bind (fun id => mlookup st.Receipts id)
  (st, LuaReply.verification msg.receiptIdArg found.isSome
    (found.bind (fun r => some r.stored_at)) (found.map (fun r => r.message_id)))

/-- The `GetStats` query handler (read-only). -/
def getStatsHandler (_msg : LuaMsg) (st : LuaState) : LuaState × LuaReply :=
  (st, LuaReply.stats st.ReceiptCount st.Owner st.Frozen)

/-! ### Association-list lemmas -/

theorem mlookup_mapSet {α : Type} (m : List (String × α)) (k : String) (v : α)
    (q : String) :
    mlookup (mapSet m k v) q = if k = q then some v else mlookup m q := by
  induction m with
  | nil => simp [mapSet, mlookup]
  | cons p rest ih =>
      obtain ⟨a, b⟩ := p
      by_cases hak : a = k
      · subst hak
        by_cases haq : a = q
        · subst haq; simp [mapSet, mlookup]
        · simp [mapSet, mlookup, haq]
      · by_cases haq : a = q
        · subst haq
          have hkq : ¬ k = a := fun h => hak h.symm
          simp [mapSet, mlookup, hak, hkq]
        · simp [mapSet, mlookup, hak, haq, ih]

theorem mlookup_mapDelete {α : Type} (m : List (String × α)) (k : String)
    (q : String) :
    mlookup (mapDelete m k) q = if k = q then none else mlookup m q := by
  induction m with
  | nil => simp [mapDelete, mlookup]
  | cons p rest ih =>
      obtain ⟨a, b⟩ := p
      by_cases hak : a = k
      · subst hak
        by_cases haq : a = q
        · subst haq; simp [mapDelete, mlookup, ih]
        · simp [mapDelete, mlookup, haq, ih]
      · by_cases haq : a = q
        · subst haq
          have hkq : ¬ k = a := fun h => hak h.symm
          simp [mapDelete, mlookup, hak, hkq]
        · simp [mapDelete, mlookup, hak, haq, ih]

theorem mlookup_eq_none_iff {α : Type} (m : List (String × α)) (k : String) :
    mlookup m k = none ↔ k ∉ m.map Prod.fst := by
  induction m with
  | nil => simp [mlookup]
  | cons p rest ih =>
      obtain ⟨a, b⟩ := p
      by_cases hak : a = k
      · subst hak; simp [mlookup]
      · have hka : k ≠ a := fun h => hak h.symm
        rw [show mlookup ((a, b) :: rest) k = mlookup rest k by simp [mlookup, hak]]
        rw [ih]
        simp [hka]

theorem mapDelete_of_not_mem {α : Type} (m : List (String × α)) (k : String)
    (h : k ∉ m.map Prod.fst) : mapDelete m k = m := by
  induction m with
  | nil => rfl
  | cons p rest ih =>
      obtain ⟨a, b⟩ := p
      simp only [List.map_cons, List.mem_cons, not_or] at h
      have hak : ¬ a = k := fun hh => h.1 hh.symm
      simp [mapDelete, hak, ih h.2]

theorem mlookup_append {α : Type} (m n : List (String × α)) (k : String) :
    mlookup (m ++ n) k =
      match mlookup m k with
      | some v => some v
      | none => mlookup n k := by
  induction m with
  | nil => simp [mlookup]
  | cons p rest ih =>
      obtain ⟨a, b⟩ := p
      by_cases hak : a = k
      · simp [mlookup, hak]
      · simp [mlookup, hak, ih]

theorem mlookup_isSome_of_mem {α : Type} (m : List (String × α)) (k : String)
    (v : α) (h : (k, v) ∈ m) : (mlookup m k).isSome = true := by
  induction m with
  | nil => simp at h
  | cons p rest ih =>
      obtain ⟨a, b⟩ := p
      rcases List.mem_cons.mp h with h1 | h2
      · cases h1; simp [mlookup]
      · by_cases hak : a = k
        · simp [mlookup, hak]
        · simp [mlookup, hak, ih h2]

/-! ### Settlement fold lemmas -/

theorem applyResult_pendingReceipts_none (st : ServerState) (x : SettlementResult)
    (k : String) (h : mlookup st.pendingReceipts k = none) :
    mlookup (applyResult st x).pendingReceipts k = none := by
  unfold applyResult
  cases hx : mlookup st.pendingReceipts x.receipt_id with
  | none => simpa [hx] using h
  | some pending =>
      by_cases hs : x.status = Status.settled
      · simp only [hx, hs, if_pos]
        rw [mlookup_mapDelete]
        by_cases hk : x.receipt_id = k <;> simp [hk, h]
      · simpa [hx, hs] using h

theorem foldl_applyResult_pendingReceipts_none (results : List SettlementResult)
    (st : ServerState) (k : String) (h : mlookup st.pendingReceipts k = none) :
    mlookup (results.foldl applyResult st).pendingReceipts k = none := by
  induction results generalizing st with
  | nil => simpa using h
  | cons x rest ih =>
      simp only [List.foldl_cons]
      exact ih _ (applyResult_pendingReceipts_none st x k h)

theorem applyResult_settledReceipts_other (st : ServerState) (x : SettlementResult)
    (k : String) (h : x.receipt_id ≠ k) :
    mlookup (applyResult st x).settledReceipts k = mlookup st.settledReceipts k := by
  unfold applyResult
  cases hx : mlookup st.pendingReceipts x.receipt_id with
  | none => simp [hx]
  | some pending =>
      by_cases hs : x.status = Status.settled
      · simp only [hx, hs, if_pos]
        rw [mlookup_mapSet]
        simp [h]
      · simp [hx, hs]

theorem foldl_applyResult_settledReceipts_other (results : List SettlementResult)
    (st : ServerState) (k : String) (h : ∀ x ∈ results, x.receipt_id ≠ k) :
    mlookup (results.foldl applyResult st).settledReceipts k
      = mlookup st.settledReceipts k := by
  induction results generalizing st with
  | nil => simp
  | cons x rest ih =>
      simp only [List.foldl_cons]
      rw [ih _ (fun y hy => h y (List.mem_cons_of_mem x hy)),
        applyResult_settledReceipts_other st x k (h x (List.mem_cons_self x rest))]

/-- A settlement fold over results generated pointwise from the pending
snapshot, all reporting `settled`: every previously pending receipt leaves
the pending map and appears in the settled map with its assigned
transaction id. -/
theorem foldl_applyResult_all_settled
    (f : PendingReceipt → SettlementResult)
    (hid : ∀ r, (f r).receipt_id = r.receipt_id)
    (hst : ∀ r, (f r).status = Status.settled)
    (p : List (String × PendingReceipt)) (sstore : List (String × WitnessReceipt))
    (hkeys : ∀ x ∈ p, x.2.receipt_id = x.1)
    (hnd : (p.map Prod.fst).Nodup) :
    ∀ k v, mlookup p k = some v →
      mlookup (((p.map Prod.snd).map f).foldl applyResult ⟨p, sstore⟩).pendingReceipts k
        = none ∧
      mlookup (((p.map Prod.snd).map f).foldl applyResult ⟨p, sstore⟩).settledReceipts k
        = some (settledView v ((f v).arweave_tx)) := by
  induction p generalizing sstore with
  | nil => intro k v h; simp [mlookup] at h
  | cons hd rest ih =>
      obtain ⟨k0, v0⟩ := hd
      have hk0v0 : v0.receipt_id = k0 := hkeys (k0, v0) (List.mem_cons_self _ _)
      have hnd' : (rest.map Prod.fst).Nodup := (List.nodup_cons.mp hnd).2
      have hk0rest : k0 ∉ rest.map Prod.fst := (List.nodup_cons.mp hnd).1
      -- the first applyResult step promotes (k0, v0)
      have hlook0 : mlookup ((k0, v0) :: rest) k0 = some v0 := by simp [mlookup]
      have hstep : applyResult ⟨(k0, v0) :: rest, sstore⟩ (f v0)
          = ⟨rest, mapSet sstore k0 (settledView v0 ((f v0).arweave_tx))⟩ := by
        unfold applyResult
        simp only [hid v0, hk0v0, hlook0, hst v0, if_pos]
        have hdel : mapDelete ((k0, v0) :: rest) k0 = rest := by
          simp [mapDelete, mapDelete_of_not_mem rest k0 hk0rest]
        simp [hdel, hk0v0]
      intro k v hkv
      simp only [List.map_cons, List.foldl_cons, hstep]
      by_cases hk : k = k0
      · subst hk
        have hveq : v0 = v := by simpa [mlookup] using hkv
        subst hveq
        have hrest_none : mlookup rest k = none :=
          (mlookup_eq_none_iff rest k).mpr hk0rest
        constructor
        · exact foldl_applyResult_pendingReceipts_none _ _ _ hrest_none
        · rw [foldl_applyResult_settledReceipts_other]
          · rw [mlookup_mapSet]; simp
          · intro x hx
            simp only [List.mem_map] at hx
            obtain ⟨r, hr, hxr⟩ := hx
            obtain ⟨w, hwmem, hwr⟩ := hr
            subst hxr
            rw [hid r, ← hwr, hkeys w (List.mem_cons_of_mem _ hwmem)]
            intro hcontra
            exact hk0rest (hcontra ▸ List.mem_map_of_mem Prod.fst hwmem)
      · have hkrest : mlookup rest k = some v := by
          have hk0k : ¬ k0 = k := fun h => hk h.symm
          simpa [mlookup, hk0k] using hkv
        exact ih (mapSet sstore k0 (settledView v0 ((f v0).arweave_tx)))
          (fun x hx => hkeys x (List.mem_cons_of_mem _ hx)) hnd' k v hkrest

/-- A settlement fold over results none of which report `settled` leaves
the state unchanged (every receipt is kept in the pending map for retry). -/
theorem foldl_applyResult_all_failed (results : List SettlementResult)
    (st : ServerState) (h : ∀ x ∈ results, x.status ≠ Status.settled) :
    results.foldl applyResult st = st := by
  induction results with
  | nil => rfl
  | cons x rest ih =>
      have hx : applyResult st x = st := by
        unfold applyResult
        cases hl : mlookup st.pendingReceipts x.receipt_id with
        | none => rfl
        | some pending => simp [h x (List.mem_cons_self x rest)]
      simp only [List.foldl_cons, hx]
      exact ih (fun y hy => h y (List.mem_cons_of_mem x hy))

/-! ### Lua store fold lemmas -/

/-- The counting invariant of the AO process: `State.ReceiptCount` equals
the number of stored receipt ids (keys are distinct, so the number of ids
is the length of the table). -/
def countInv (st : LuaState) : Prop :=
  st.ReceiptCount = st.Receipts.length ∧ (st.Receipts.map Prod.fst).Nodup

theorem storeOne_owner_frozen (ts : Nat) (mid : String) (acc : LuaState × Nat)
    (r : IncomingReceipt) :
    (storeOne ts mid acc r).1.Owner = acc.1.Owner ∧
    (storeOne ts mid acc r).1.Frozen = acc.1.Frozen := by
  unfold storeOne
  cases r.receipt_id with
  | none => exact ⟨rfl, rfl⟩
  | some id =>
      by_cases h : (mlookup acc.1.Receipts id).isSome = true <;> simp [h]

theorem storeFold_owner_frozen (ts : Nat) (mid : String)
    (rs : List IncomingReceipt) (acc : LuaState × Nat) :
    (rs.foldl (storeOne ts mid) acc).1.Owner = acc.1.Owner ∧
    (rs.foldl (storeOne ts mid) acc).1.Frozen = acc.1.Frozen := by
  induction rs generalizing acc with
  | nil => exact ⟨rfl, rfl⟩
  | cons r rest ih =>
      simp only [List.foldl_cons]
      obtain ⟨ho, hf⟩ := ih (storeOne ts mid acc r)
      obtain ⟨ho1, hf1⟩ := storeOne_owner_frozen ts mid acc r
      exact ⟨ho.trans ho1, hf.trans hf1⟩

theorem storeOne_mlookup_mono (ts : Nat) (mid : String) (acc : LuaState × Nat)
    (r : IncomingReceipt) (k : String) (v : StoredReceipt)
    (h : mlookup acc.1.Receipts k = some v) :
    mlookup (storeOne ts mid acc r).1.Receipts k = some v := by
  unfold storeOne
  cases r.receipt_id with
  | none => exact h
  | some id =>
      by_cases hpres : (mlookup acc.1.Receipts id).isSome = true
      · simpa [hpres] using h
      · simp only [hpres, Bool.false_eq_true, if_false]
        rw [mlookup_append]
        simp [h]

theorem storeFold_mlookup_mono (ts : Nat) (mid : String)
    (rs : List IncomingReceipt) (acc : LuaState × Nat) (k : String)
    (v : StoredReceipt) (h : mlookup acc.1.Receipts k = some v) :
    mlookup ((rs.foldl (storeOne ts mid) acc).1.Receipts) k = some v := by
  induction rs generalizing acc with
  | nil => exact h
  | cons r rest ih =>
      simp only [List.foldl_cons]
      exact ih _ (storeOne_mlookup_mono ts mid acc r k v h)

theorem storeOne_countInv (ts : Nat) (mid : String) (acc : LuaState × Nat)
    (r : IncomingReceipt) (h : countInv acc.1) :
    countInv (storeOne ts mid acc r).1 := by
  unfold storeOne
  cases r.receipt_id with
  | none => exact h
  | some id =>
      by_cases hpres : (mlookup acc.1.Receipts id).isSome = true
      · simpa [hpres] using h
      · have hnone : mlookup acc.1.Receipts id = none := by
          cases hl : mlookup acc.1.Receipts id with
          | none => rfl
          | some w => rw [hl] at hpres; simp at hpres
        have hnotmem : id ∉ acc.1.Receipts.map Prod.fst :=
          (mlookup_eq_none_iff _ _).mp hnone
        simp only [hpres, Bool.false_eq_true, if_false]
        constructor
        · simp [h.1]
        · simp only [List.map_append, List.map_cons, List.map_nil]
          rw [List.nodup_append]
          exact ⟨h.2, List.nodup_singleton id, by simpa using hnotmem⟩

theorem storeFold_countInv (ts : Nat) (mid : String) (rs : List IncomingReceipt)
    (acc : LuaState × Nat) (h : countInv acc.1) :
    countInv ((rs.foldl (storeOne ts mid) acc).1) := by
  induction rs generalizing acc with
  | nil => exact h
  | cons r rest ih =>
      simp only [List.foldl_cons]
      exact ih _ (storeOne_countInv ts mid acc r h)

theorem storeOne_isSome_mono (ts : Nat) (mid : String) (acc : LuaState × Nat)
    (r : IncomingReceipt) (k : String)
    (h : (mlookup acc.1.Receipts k).isSome = true) :
    (mlookup (storeOne ts mid acc r).1.Receipts k).isSome = true := by
  cases hl : mlookup acc.1.Receipts k with
  | none => rw [hl] at h; simp at h
  | some v => rw [storeOne_mlookup_mono ts mid acc r k v hl]; rfl

theorem storeFold_isSome_mono (ts : Nat) (mid : String) (rs : List IncomingReceipt)
    (acc : LuaState × Nat) (k : String)
    (h : (mlookup acc.1.Receipts k).isSome = true) :
    (mlookup ((rs.foldl (storeOne ts mid) acc).1.Receipts) k).isSome = true := by
  cases hl : mlookup acc.1.Receipts k with
  | none => rw [hl] at h; simp at h
  | some v => rw [storeFold_mlookup_mono ts mid rs acc k v hl]; rfl

theorem storeOne_makes_present (ts : Nat) (mid : String) (acc : LuaState × Nat)
    (r : IncomingReceipt) (id : String) (hr : r.receipt_id = some id) :
    (mlookup (storeOne ts mid acc r).1.Receipts id).isSome = true := by
  unfold storeOne
  rw [hr]
  by_cases hpres : (mlookup acc.1.Receipts id).isSome = true
  · simp [hpres]
  · have hnone : mlookup acc.1.Receipts id = none := by
      cases hl : mlookup acc.1.Receipts id with
      | none => rfl
      | some w => rw [hl] at hpres; simp at hpres
    simp only [hpres, Bool.false_eq_true, if_false]
    rw [mlookup_append, hnone]
    simp [mlookup]

theorem storeFold_all_present (ts : Nat) (mid : String) (rs : List IncomingReceipt)
    (acc : LuaState × Nat) :
    ∀ r ∈ rs, ∀ id, r.receipt_id = some id →
      (mlookup ((rs.foldl (storeOne ts mid) acc).1.Receipts) id).isSome = true := by
  induction rs generalizing acc with
  | nil => intro r hr; simp at hr
  | cons r0 rest ih =>
      intro r hr id hid
      rcases List.mem_cons.mp hr with h1 | h2
      · subst h1
        simp only [List.foldl_cons]
        exact storeFold_isSome_mono ts mid rest _ id
          (storeOne_makes_present ts mid acc r id hid)
      · simp only [List.foldl_cons]
        exact ih _ r h2 id hid

theorem storeFold_of_all_present (ts : Nat) (mid : String)
    (rs : List IncomingReceipt) (st : LuaState) (c : Nat)
    (h : ∀ r ∈ rs, ∀ id, r.receipt_id = some id →
      (mlookup st.Receipts id).isSome = true) :
    rs.foldl (storeOne ts mid) (st, c) = (st, c) := by
  induction rs generalizing c with
  | nil => rfl
  | cons r rest ih =>
      have hstep : storeOne ts mid (st, c) r = (st, c) := by
        unfold storeOne
        cases hr : r.receipt_id with
        | none => rfl
        | some id => simp [h r (List.mem_cons_self r rest) id hr]
      simp only [List.foldl_cons, hstep]
      exact ih c (fun r2 h2 id hid => h r2 (List.mem_cons_of_mem r h2) id hid)

theorem storeOne_nodup (ts : Nat) (mid : String) (acc : LuaState × Nat)
    (r : IncomingReceipt) (h : (acc.1.Receipts.map Prod.fst).Nodup) :
    ((storeOne ts mid acc r).1.Receipts.map Prod.fst).Nodup := by
  unfold storeOne
  cases r.receipt_id with
  | none => exact h
  | some id =>
      by_cases hpres : (mlookup acc.1.Receipts id).isSome = true
      · simpa [hpres] using h
      · have hnone : mlookup acc.1.Receipts id = none := by
          cases hl : mlookup acc.1.Receipts id with
          | none => rfl
          | some w => rw [hl] at hpres; simp at hpres
        have hnotmem : id ∉ acc.1.Receipts.map Prod.fst :=
          (mlookup_eq_none_iff _ _).mp hnone
        simp only [hpres, Bool.false_eq_true, if_false, List.map_append,
          List.map_cons, List.map_nil]
        rw [List.nodup_append]
        exact ⟨h, List.nodup_singleton id, by simpa using hnotmem⟩

theorem storeFold_nodup (ts : Nat) (mid : String) (rs : List IncomingReceipt)
    (acc : LuaState × Nat) (h : (acc.1.Receipts.map Prod.fst).Nodup) :
    (((rs.foldl (storeOne ts mid) acc).1.Receipts).map Prod.fst).Nodup := by
  induction rs generalizing acc with
  | nil => exact h
  | cons r rest ih =>
      simp only [List.foldl_cons]
      exact ih _ (storeOne_nodup ts mid acc r h)

theorem isEmpty_false_of_mlookup {α : Type} (m : List (String × α)) (k : String)
    (v : α) (h : mlookup m k = some v) : m.isEmpty = false := by
  cases m with
  | nil => simp [mlookup] at h
  | cons a l => rfl

/-! ### The pending/settled partition invariant -/

/-- A receipt id lives in exactly one of the two maps: in the pending map
and not the settled map, or in the settled map and not the pending map. -/
def exactlyOne (st : ServerState) (id : String) : Prop :=
  ((mlookup st.pendingReceipts id).isSome = true ∧ mlookup st.settledReceipts id = none) ∨
  (mlookup st.pendingReceipts id = none ∧ (mlookup st.settledReceipts id).isSome = true)

theorem applyResult_exactlyOne (st : ServerState) (x : SettlementResult)
    (id : String) (h : exactlyOne st id) : exactlyOne (applyResult st x) id := by
  unfold applyResult
  cases hx : mlookup st.pendingReceipts x.receipt_id with
  | none => simpa [hx] using h
  | some pending =>
      by_cases hs : x.status = Status.settled
      · simp only [hx, hs, if_pos]
        by_cases hid : x.receipt_id = id
        · right
          constructor
          · show mlookup (mapDelete st.pendingReceipts x.receipt_id) id = none
            rw [mlookup_mapDelete]; simp [hid]
          · show (mlookup (mapSet st.settledReceipts x.receipt_id _) id).isSome = true
            rw [mlookup_mapSet]; simp [hid]
        · have hp : mlookup (mapDelete st.pendingReceipts x.receipt_id) id
              = mlookup st.pendingReceipts id := by
            rw [mlookup_mapDelete]; simp [hid]
          have hss : mlookup (mapSet st.settledReceipts x.receipt_id
                (settledView pending x.arweave_tx)) id
              = mlookup st.settledReceipts id := by
            rw [mlookup_mapSet]; simp [hid]
          unfold exactlyOne
          rw [show ({ st with
              settledReceipts := mapSet st.settledReceipts x.receipt_id
                (settledView pending x.arweave_tx),
              pendingReceipts := mapDelete st.pendingReceipts x.receipt_id }
              : ServerState).pendingReceipts
            = mapDelete st.pendingReceipts x.receipt_id from rfl]
          rw [hp, hss]
          exact h
      · simpa [hx, hs] using h

theorem foldl_applyResult_exactlyOne (results : List SettlementResult)
    (st : ServerState) (id : String) (h : exactlyOne st id) :
    exactlyOne (results.foldl applyResult st) id := by
  induction results generalizing st with
  | nil => exact h
  | cons x rest ih =>
      simp only [List.foldl_cons]
      exact ih _ (applyResult_exactlyOne st x id h)

/-! ### Concrete fixtures used by witnesses and counterexamples -/

/-- A concrete abstract digest (constant hex string). -/
def digest0 : HashPayload → String := fun _ => "0123456789abcdef0123456789abcdef"

/-- A concrete signer with a correct keypair: signatures are the hash with
a fixed tag appended, verification checks exactly that. -/
def signer0 : Signer :=
  { sign := fun h => h ++ "sig", verify := fun h s => decide (s = h ++ "sig") }

/-- A concrete valid witness request. -/
def req0 : WitnessRequest := { context := "c", logic := "l", action := "a", agent_id := none }

/-- A concrete pending receipt. -/
def receipt0 : PendingReceipt :=
  { receipt_id := "vts_0000000000000000"
    signature := "0000000000000000ffffsig"
    timestamp_ms := 1
    hash := "0000000000000000ffff"
    arweave_tx := none
    status := Status.pending
    full_payload := req0 }

/-- A server state holding exactly `receipt0` in the pending map. -/
def st1 : ServerState := ⟨[("vts_0000000000000000", receipt0)], []⟩

/-- Settler configuration with a remote process but no wallet. -/
def cfgNoWallet : SettlerConfig := { processId := some "proc123", wallet := none }

/-- Settler configuration with no remote process. -/
def cfgNoProcess : SettlerConfig := { processId := none, wallet := none }

/-- Fully configured settler. -/
def cfgOk : SettlerConfig := { processId := some "proc123", wallet := some "wallet" }

/-! ### Claims -/

/-- Claim C4: for every decision record with non-empty `context`, `logic`
and `action`, `witnessDecision` returns a receipt whose `signature`
verifies against its `hash` under the process keypair, and whose
`receipt_id` equals `generateReceiptId` applied to its `hash` — the string
`vts_` followed by the first 16 characters of the hex hash — so the id is
a deterministic function of the hash alone. -/
theorem claim_C4 (digest : HashPayload → String) (S : Signer) (now : Nat)
    (r : WitnessRequest) (st : ServerState)
    (_hc : r.context ≠ "") (_hl : r.logic ≠ "") (_ha : r.action ≠ "")
    (hS : ∀ h, S.verify h (S.sign h) = true) :
    S.verify (witnessDecision digest S now r st).1.hash
        (witnessDecision digest S now r st).1.signature = true ∧
    (witnessDecision digest S now r st).1.receipt_id
      = generateReceiptId (witnessDecision digest S now r st).1.hash ∧
    generateReceiptId (witnessDecision digest S now r st).1.hash
      = "vts_" ++ (witnessDecision digest S now r st).1.hash.take 16 :=
  ⟨hS (hashWitnessRequest digest r now), rfl, rfl⟩

/-- Concrete instantiation of C4 at `req0` under `digest0`/`signer0`. -/
theorem claim_C4_witness :
    signer0.verify (witnessDecision digest0 signer0 1 req0 initialServerState).1.hash
        (witnessDecision digest0 signer0 1 req0 initialServerState).1.signature = true ∧
    (witnessDecision digest0 signer0 1 req0 initialServerState).1.receipt_id
      = generateReceiptId (witnessDecision digest0 signer0 1 req0 initialServerState).1.hash ∧
    generateReceiptId (witnessDecision digest0 signer0 1 req0 initialServerState).1.hash
      = "vts_" ++ (witnessDecision digest0 signer0 1 req0 initialServerState).1.hash.take 16 :=
  claim_C4 digest0 signer0 1 req0 initialServerState
    (by decide) (by decide) (by decide) (fun h => by simp [signer0])

/-- Claim C6: `verifyReceipt` consults the settled map first and the
pending map second; an id found in neither map yields `valid = false` with
the not-found message and never the invalid-signature message; a found
record whose signature fails verification yields the invalid-signature
message, which is distinct from the not-found message; and the function
leaves the server state untouched. -/
theorem claim_C6 (S : Signer) (st : ServerState) (id : String) :
    (mlookup st.settledReceipts id = none → mlookup st.pendingReceipts id = none →
      (verifyReceipt S st id).1 = ⟨false, none, "Receipt not found"⟩) ∧
    (∀ s, mlookup st.settledReceipts id = some s →
      (verifyReceipt S st id).1.receipt = some s ∧
      (S.verify s.hash s.signature = false →
        (verifyReceipt S st id).1 = ⟨false, some s, "Invalid signature"⟩)) ∧
    (∀ p, mlookup st.settledReceipts id = none →
      mlookup st.pendingReceipts id = some p →
      (verifyReceipt S st id).1.receipt = some p.toWitnessReceipt ∧
      (S.verify p.hash p.signature = false →
        (verifyReceipt S st id).1 = ⟨false, some p.toWitnessReceipt, "Invalid signature"⟩)) ∧
    ("Receipt not found" ≠ "Invalid signature") ∧
    ((verifyReceipt S st id).2 = st) := by
  refine ⟨?_, ?_, ?_, by decide, ?_⟩
  · intro hs hp
    simp [verifyReceipt, hs, hp]
  · intro s hs
    refine ⟨by simp [verifyReceipt, hs], fun hv => by simp [verifyReceipt, hs, hv]⟩
  · intro p hs hp
    refine ⟨by simp [verifyReceipt, hs, hp], fun hv => by simp [verifyReceipt, hs, hp, hv]⟩
  · cases hs : mlookup st.settledReceipts id with
    | some s => simp [verifyReceipt, hs]
    | none =>
        cases hp : mlookup st.pendingReceipts id with
        | some p => simp [verifyReceipt, hs, hp]
        | none => simp [verifyReceipt, hs, hp]

/-- Concrete instantiation of C6: an unknown id on the empty state reports
not-found, and the state is unchanged. -/
theorem claim_C6_witness :
    (verifyReceipt signer0 initialServerState "vts_unknown").1
      = ⟨false, none, "Receipt not found"⟩ ∧
    (verifyReceipt signer0 initialServerState "vts_unknown").2 = initialServerState :=
  ⟨(claim_C6 signer0 initialServerState "vts_unknown").1 rfl rfl,
   (claim_C6 signer0 initialServerState "vts_unknown").2.2.2.2⟩

/-- Claim C7: a `/witness` request with a missing or empty `context`,
`logic` or `action` is rejected with the 400 validation error, the receipt
maps are left unchanged, and the outcome is independent of the digest and
signing functions — no hashing or signing work contributes to it. -/
theorem claim_C7 (digest : HashPayload → String) (S : Signer) (now : Nat)
    (body : WitnessBody) (st : ServerState)
    (h : jsTruthy body.context = false ∨ jsTruthy body.logic = false ∨
      jsTruthy body.action = false) :
    (handleWitness digest S now body st).2 = st ∧
    (handleWitness digest S now body st).1
      = WitnessResponse.badRequest "Missing required fields: context, logic, action" ∧
    (∀ (digest2 : HashPayload → String) (S2 : Signer),
      handleWitness digest S now body st = handleWitness digest2 S2 now body st) := by
  have key : ∀ (d : HashPayload → String) (Sg : Signer),
      handleWitness d Sg now body st
        = (WitnessResponse.badRequest "Missing required fields: context, logic, action", st) := by
    intro d Sg
    have hcond : (!jsTruthy body.context || !jsTruthy body.logic
        || !jsTruthy body.action) = true := by
      rcases h with h | h | h <;> simp [h]
    simp [handleWitness, hcond]
  exact ⟨by rw [key], by rw [key], fun d2 S2 => by rw [key, key]⟩

/-- Concrete instantiation of C7: empty `context` with present `logic` and
`action` is rejected and stores nothing. -/
theorem claim_C7_witness :
    (handleWitness digest0 signer0 1
      ⟨some "", some "l", some "a", none⟩ initialServerState).2 = initialServerState ∧
    (handleWitness digest0 signer0 1
      ⟨some "", some "l", some "a", none⟩ initialServerState).1
      = WitnessResponse.badRequest "Missing required fields: context, logic, action" :=
  ⟨(claim_C7 digest0 signer0 1 ⟨some "", some "l", some "a", none⟩ initialServerState
      (Or.inl (by decide))).1,
   (claim_C7 digest0 signer0 1 ⟨some "", some "l", some "a", none⟩ initialServerState
      (Or.inl (by decide))).2.1⟩

/-- Claim C8: every batch payload the settler submits carries, per
receipt, exactly the minimal-disclosure summary: `context_hash` is the
`hashString` digest of `context` (never the raw string — the forwarded
record has no raw-context field), `logic_summary` is the prefix of `logic`
of at most 200 characters, `action` is forwarded in full, and `agent_id`
is the agent id or null; and whenever `settleToArweave` submits a payload,
its receipt summaries are exactly these. -/
theorem claim_C8 (now : Nat) (receipts : List PendingReceipt) :
    ((batchPayloadFor now receipts).receipts = receipts.map ledgerEntryOfReceipt) ∧
    (∀ r ∈ receipts,
      (ledgerEntryOfReceipt r).context_hash = hashString r.full_payload.context ∧
      (ledgerEntryOfReceipt r).logic_summary = r.full_payload.logic.take 200 ∧
      (ledgerEntryOfReceipt r).logic_summary.length ≤ 200 ∧
      (∃ rest, (ledgerEntryOfReceipt r).logic_summary ++ rest = r.full_payload.logic) ∧
      (ledgerEntryOfReceipt r).action = r.full_payload.action ∧
      (ledgerEntryOfReceipt r).agent_id = jsOrNull r.full_payload.agent_id) ∧
    (∀ (cfg : SettlerConfig) (outcome : LedgerOutcome) (pl : BatchPayload),
      (settleToArweave cfg now outcome receipts).2 = some pl →
      pl.receipts = receipts.map ledgerEntryOfReceipt) := by
  refine ⟨rfl, ?_, ?_⟩
  · intro r _
    refine ⟨rfl, by simp [ledgerEntryOfReceipt], ?_, ?_, rfl, rfl⟩
    · simp only [ledgerEntryOfReceipt]
      rw [String.take_eq]
      show (List.take 200 r.full_payload.logic.data).length ≤ 200
      simp
    · refine ⟨r.full_payload.logic.drop 200, ?_⟩
      simp only [ledgerEntryOfReceipt]
      rw [String.take_eq, String.drop_eq]
      show String.mk (List.take 200 r.full_payload.logic.data
          ++ List.drop 200 r.full_payload.logic.data) = r.full_payload.logic
      rw [List.take_append_drop]
  · intro cfg outcome pl hpl
    unfold settleToArweave at hpl
    cases hcp : cfg.processId with
    | none => rw [hcp] at hpl; simp at hpl
    | some p =>
        rw [hcp] at hpl
        cases hcw : cfg.wallet with
        | none => rw [hcw] at hpl; simp at hpl
        | some w =>
            rw [hcw] at hpl
            cases outcome with
            | ok mid =>
                simp only [Option.some.injEq] at hpl
                rw [← hpl]
                rfl
            | err e =>
                simp only [Option.some.injEq] at hpl
                rw [← hpl]
                rfl


/-- Concrete instantiation of C8 at a singleton batch. -/
theorem claim_C8_witness :
    (ledgerEntryOfReceipt receipt0).context_hash
      = hashString receipt0.full_payload.context ∧
    (ledgerEntryOfReceipt receipt0).logic_summary
      = receipt0.full_payload.logic.take 200 ∧
    (ledgerEntryOfReceipt receipt0).action = receipt0.full_payload.action :=
  ⟨((claim_C8 7 [receipt0]).2.1 receipt0 (List.mem_singleton.mpr rfl)).1,
   ((claim_C8 7 [receipt0]).2.1 receipt0 (List.mem_singleton.mpr rfl)).2.1,
   ((claim_C8 7 [receipt0]).2.1 receipt0 (List.mem_singleton.mpr rfl)).2.2.2.2.1⟩

/-- Claim C1 counterexample: the claim that a permanent configuration
failure makes the tick mark every receipt of the batch `failed` and remove
it from the pending set is false on the code.  With a process configured
but no wallet — the "no signing credential" configuration failure — the
tick leaves the state completely unchanged: the receipt is still pending
with status `pending`, so it is resubmitted on every later tick.  With no
remote ledger configured, the tick instead simulates success: the receipt
is promoted to the settled map with status `settled`, not `failed`. -/
theorem claim_C1_counterexample :
    settleReceipts cfgNoWallet 5 (LedgerOutcome.ok "mid") st1 = st1 ∧
    mlookup (settleReceipts cfgNoWallet 5 (LedgerOutcome.ok "mid") st1).pendingReceipts
      "vts_0000000000000000" = some receipt0 ∧
    receipt0.status = Status.pending ∧
    mlookup (settleReceipts cfgNoProcess 5 (LedgerOutcome.ok "mid") st1).settledReceipts
      "vts_0000000000000000"
      = some (settledView receipt0 (some "sim_5_vts_0000000000000000")) ∧
    (settledView receipt0 (some "sim_5_vts_0000000000000000")).status = Status.settled := by
  refine ⟨by decide, by decide, by decide, by decide, by decide⟩

/-- Claim C1 amended: when no remote ledger process is configured, the
tick simulates settlement — every pending receipt is promoted to the
settled map with a simulated `sim_` transaction id and status `settled`.
When a ledger is configured but no wallet is available, the Ledger Client
reports per-receipt failure and the tick leaves the server state entirely
unchanged, so the same receipts are resubmitted on every later tick.  In
neither configuration-failure case is any receipt marked `failed`. -/
theorem claim_C1_amended (cfg : SettlerConfig) (now : Nat) (outcome : LedgerOutcome)
    (st : ServerState) :
    (∀ p, cfg.processId = some p → cfg.wallet = none →
      settleReceipts cfg now outcome st = st) ∧
    (cfg.processId = none →
      (∀ x ∈ st.pendingReceipts, x.2.receipt_id = x.1) →
      (st.pendingReceipts.map Prod.fst).Nodup →
      ∀ k v, mlookup st.pendingReceipts k = some v →
        mlookup (settleReceipts cfg now outcome st).pendingReceipts k = none ∧
        mlookup (settleReceipts cfg now outcome st).settledReceipts k
          = some (settledView v (some ("sim_" ++ toString now ++ "_" ++ v.receipt_id)))) := by
  constructor
  · intro p hp hw
    unfold settleReceipts
    by_cases he : st.pendingReceipts.isEmpty
    · simp [he]
    · rw [if_neg he]
      apply foldl_applyResult_all_failed
      intro x hx
      unfold settleToArweave at hx
      rw [hp, hw] at hx
      simp only [List.mem_map] at hx
      obtain ⟨r, _, hxr⟩ := hx
      rw [← hxr]
      simp
  · intro hp hkeys hnd k v hkv
    have hne : st.pendingReceipts.isEmpty = false :=
      isEmpty_false_of_mlookup _ _ _ hkv
    have hsr : settleReceipts cfg now outcome st
        = ((st.pendingReceipts.map Prod.snd).map (fun r =>
            ({ receipt_id := r.receipt_id
               arweave_tx := some ("sim_" ++ toString now ++ "_" ++ r.receipt_id)
               ao_message_id := some ("sim_msg_" ++ toString now)
               status := Status.settled
               error := none } : SettlementResult))).foldl applyResult
            ⟨st.pendingReceipts, st.settledReceipts⟩ := by
      unfold settleReceipts
      rw [if_neg (by simp [hne])]
      unfold settleToArweave
      rw [hp]
    have hmain := foldl_applyResult_all_settled
      (fun r => ({ receipt_id := r.receipt_id
                   arweave_tx := some ("sim_" ++ toString now ++ "_" ++ r.receipt_id)
                   ao_message_id := some ("sim_msg_" ++ toString now)
                   status := Status.settled
                   error := none } : SettlementResult))
      (fun r => rfl) (fun r => rfl)
      st.pendingReceipts st.settledReceipts hkeys hnd k v hkv
    rw [hsr]
    exact ⟨hmain.1, hmain.2⟩

/-- Concrete instantiation of the amended C1 at `st1`: the no-wallet tick
is the identity, and the no-process tick settles `receipt0` with a
simulated transaction id. -/
theorem claim_C1_amended_witness :
    settleReceipts cfgNoWallet 5 (LedgerOutcome.ok "mid") st1 = st1 ∧
    mlookup (settleReceipts cfgNoProcess 5 (LedgerOutcome.ok "mid") st1).pendingReceipts
      "vts_0000000000000000" = none ∧
    mlookup (settleReceipts cfgNoProcess 5 (LedgerOutcome.ok "mid") st1).settledReceipts
      "vts_0000000000000000"
      = some (settledView receipt0 (some ("sim_" ++ toString 5 ++ "_" ++ receipt0.receipt_id))) :=
  ⟨(claim_C1_amended cfgNoWallet 5 (LedgerOutcome.ok "mid") st1).1 "proc123" rfl rfl,
   ((claim_C1_amended cfgNoProcess 5 (LedgerOutcome.ok "mid") st1).2 rfl
      (by decide) (by decide) "vts_0000000000000000" receipt0 (by decide)).1,
   ((claim_C1_amended cfgNoProcess 5 (LedgerOutcome.ok "mid") st1).2 rfl
      (by decide) (by decide) "vts_0000000000000000" receipt0 (by decide)).2⟩

/-- Claim C2 counterexample: the claim that no two settlement-tick
executions are ever in flight at once is false on the code.  From the
initial state, witness one decision, then let the interval fire twice
before the first tick completes: after the second fire two
`settleReceipts` executions are suspended at their ledger `await`
simultaneously, because the interval callback checks only that the
pending map is non-empty, not whether a tick is in flight. -/
theorem claim_C2_counterexample :
    (runLoop cfgOk digest0 signer0 initialLoopState
      [LoopEvent.witness 1 req0, LoopEvent.timerFire, LoopEvent.timerFire]).inFlight.length
      = 2 := by
  decide

/-- Claim C2 amended: the interval callback skips a tick only when the
pending set is empty; it has no in-flight guard, so whenever the pending
set is non-empty the timer starts a new `settleReceipts` execution even if
earlier executions are still in flight, growing the number of concurrent
executions by one. -/
theorem claim_C2_amended (cfg : SettlerConfig) (digest : HashPayload → String)
    (S : Signer) (st : LoopState) :
    (st.server.pendingReceipts.isEmpty = true →
      loopStep cfg digest S st LoopEvent.timerFire = st) ∧
    (st.server.pendingReceipts.isEmpty = false →
      (loopStep cfg digest S st LoopEvent.timerFire).inFlight
        = st.inFlight ++ [st.server.pendingReceipts.map Prod.snd] ∧
      (loopStep cfg digest S st LoopEvent.timerFire).inFlight.length
        = st.inFlight.length + 1) := by
  constructor
  · intro h
    simp [loopStep, h]
  · intro h
    constructor
    · simp [loopStep, h]
    · simp [loopStep, h]

/-- A loop state with one tick already in flight over `receipt0` and the
pending map still non-empty. -/
def loopSt1 : LoopState := ⟨st1, [[receipt0]]⟩

/-- Concrete instantiation of the amended C2 at `loopSt1`: the timer fires
with one tick in flight and starts a second one. -/
theorem claim_C2_amended_witness :
    (loopStep cfgOk digest0 signer0 loopSt1 LoopEvent.timerFire).inFlight.length
      = loopSt1.inFlight.length + 1 :=
  ((claim_C2_amended cfgOk digest0 signer0 loopSt1).2 (by decide)).2

/-- Claim C3: after every completed mutation every created receipt id is
in exactly one of the two stores.  In the empty initial state the
invariant holds vacuously for the empty set of created ids; a witnessing
insertion preserves it and extends it to the freshly created id, provided
the new id does not collide with an already settled id (truncated-hash
collision freedom, the deliberate design assumption); and a settlement
tick preserves it for every created id. -/
theorem claim_C3 :
    (∀ id, id ∈ ([] : List String) → exactlyOne initialServerState id) ∧
    (∀ (digest : HashPayload → String) (S : Signer) (now : Nat)
        (r : WitnessRequest) (st : ServerState) (created : List String),
      (∀ id ∈ created, exactlyOne st id) →
      mlookup st.settledReceipts (generateReceiptId (hashWitnessRequest digest r now)) = none →
      ∀ id ∈ generateReceiptId (hashWitnessRequest digest r now) :: created,
        exactlyOne (witnessDecision digest S now r st).2 id) ∧
    (∀ (cfg : SettlerConfig) (now : Nat) (outcome : LedgerOutcome)
        (st : ServerState) (created : List String),
      (∀ id ∈ created, exactlyOne st id) →
      ∀ id ∈ created, exactlyOne (settleReceipts cfg now outcome st) id) := by
  refine ⟨?_, ?_, ?_⟩
  · intro id hid
    simp at hid
  · intro digest S now r st created hprev hfresh id hid
    have hpend : (witnessDecision digest S now r st).2.pendingReceipts
        = mapSet st.pendingReceipts (generateReceiptId (hashWitnessRequest digest r now))
            { toWitnessReceipt :=
                { receipt_id := generateReceiptId (hashWitnessRequest digest r now)
                  signature := S.sign (hashWitnessRequest digest r now)
                  timestamp_ms := now
                  hash := hashWitnessRequest digest r now
                  arweave_tx := none
                  status := Status.pending }
              full_payload := r } := rfl
    have hsett : (witnessDecision digest S now r st).2.settledReceipts
        = st.settledReceipts := rfl
    by_cases hideq : generateReceiptId (hashWitnessRequest digest r now) = id
    · left
      constructor
      · rw [hpend, mlookup_mapSet]
        simp [hideq]
      · rw [hsett, ← hideq]
        exact hfresh
    · rcases List.mem_cons.mp hid with h1 | h2
      · exact absurd h1.symm hideq
      · have hp2 : mlookup (witnessDecision digest S now r st).2.pendingReceipts id
            = mlookup st.pendingReceipts id := by
          rw [hpend, mlookup_mapSet]
          simp [hideq]
        unfold exactlyOne
        rw [hp2, hsett]
        exact hprev id h2
  · intro cfg now outcome st created hprev id hid
    unfold settleReceipts
    by_cases he : st.pendingReceipts.isEmpty
    · simp only [he, if_true]
      exact hprev id hid
    · rw [if_neg he]
      exact foldl_applyResult_exactlyOne _ _ _ (hprev id hid)

/-- Concrete instantiation of C3: the settle-preservation part applied to
`st1` and its single created id. -/
theorem claim_C3_witness :
    exactlyOne (settleReceipts cfgOk 5 (LedgerOutcome.ok "mid") st1)
      "vts_0000000000000000" :=
  claim_C3.2.2 cfgOk 5 (LedgerOutcome.ok "mid") st1 ["vts_0000000000000000"]
    (fun id hid => by
      have hone : exactlyOne st1 "vts_0000000000000000" := by
        unfold exactlyOne
        left
        exact ⟨by decide, by decide⟩
      rcases List.mem_singleton.mp hid with h
      rw [h]
      exact hone)
    "vts_0000000000000000" (List.mem_singleton.mpr rfl)

/-- Claim C5: when the ledger acknowledges a batch (process and wallet
configured, the `message` round-trip returns `mid`), every receipt of the
pending snapshot ends in the settled map with status `settled` and the
same non-null `arweave_tx = mid`; it leaves the pending map; and a
subsequent `verifyReceipt` on it (with a sound signature) returns
`valid = true`, the settled view carrying `some mid`, and the
settled message. -/
theorem claim_C5 (cfg : SettlerConfig) (now : Nat) (mid : String) (st : ServerState)
    (S : Signer) (p w : String)
    (hp : cfg.processId = some p) (hw : cfg.wallet = some w)
    (hkeys : ∀ x ∈ st.pendingReceipts, x.2.receipt_id = x.1)
    (hnd : (st.pendingReceipts.map Prod.fst).Nodup) :
    ∀ k v, mlookup st.pendingReceipts k = some v →
      mlookup (settleReceipts cfg now (LedgerOutcome.ok mid) st).settledReceipts k
        = some (settledView v (some mid)) ∧
      mlookup (settleReceipts cfg now (LedgerOutcome.ok mid) st).pendingReceipts k
        = none ∧
      (S.verify v.hash v.signature = true →
        (verifyReceipt S (settleReceipts cfg now (LedgerOutcome.ok mid) st) k).1
          = ⟨true, some (settledView v (some mid)), "Receipt verified and settled"⟩) := by
  intro k v hkv
  have hne : st.pendingReceipts.isEmpty = false :=
    isEmpty_false_of_mlookup _ _ _ hkv
  have hsr : settleReceipts cfg now (LedgerOutcome.ok mid) st
      = ((st.pendingReceipts.map Prod.snd).map (fun r =>
          ({ receipt_id := r.receipt_id
             arweave_tx := some mid
             ao_message_id := some mid
             status := Status.settled
             error := none } : SettlementResult))).foldl applyResult
          ⟨st.pendingReceipts, st.settledReceipts⟩ := by
    unfold settleReceipts
    rw [if_neg (by simp [hne])]
    unfold settleToArweave
    rw [hp, hw]
  have hmain := foldl_applyResult_all_settled
    (fun r => ({ receipt_id := r.receipt_id
                 arweave_tx := some mid
                 ao_message_id := some mid
                 status := Status.settled
                 error := none } : SettlementResult))
    (fun r => rfl) (fun r => rfl)
    st.pendingReceipts st.settledReceipts hkeys hnd k v hkv
  have hsett : mlookup (settleReceipts cfg now (LedgerOutcome.ok mid) st).settledReceipts k
      = some (settledView v (some mid)) := by
    rw [hsr]; exact hmain.2
  have hpend : mlookup (settleReceipts cfg now (LedgerOutcome.ok mid) st).pendingReceipts k
      = none := by
    rw [hsr]; exact hmain.1
  refine ⟨hsett, hpend, fun hv => ?_⟩
  simp [verifyReceipt, hsett, settledView, hv]

/-- Concrete instantiation of C5 at `st1` under `cfgOk`/`signer0`. -/
theorem claim_C5_witness :
    mlookup (settleReceipts cfgOk 5 (LedgerOutcome.ok "mid") st1).settledReceipts
      "vts_0000000000000000" = some (settledView receipt0 (some "mid")) ∧
    (verifyReceipt signer0 (settleReceipts cfgOk 5 (LedgerOutcome.ok "mid") st1)
      "vts_0000000000000000").1
      = ⟨true, some (settledView receipt0 (some "mid")), "Receipt verified and settled"⟩ :=
  ⟨(claim_C5 cfgOk 5 "mid" st1 signer0 "proc123" "wallet" rfl rfl
      (by decide) (by decide) "vts_0000000000000000" receipt0 (by decide)).1,
   (claim_C5 cfgOk 5 "mid" st1 signer0 "proc123" "wallet" rfl rfl
      (by decide) (by decide) "vts_0000000000000000" receipt0 (by decide)).2.2 (by decide)⟩

/-- Unfolding of the authorized, unfrozen `StoreReceipts` path. -/
theorem storeReceiptsHandler_unfold (msg : LuaMsg) (st : LuaState)
    (rs : List IncomingReceipt) (hfr : st.Frozen = false)
    (how : isOwner msg.From st = true) (hrs : msg.receipts = some rs) :
    storeReceiptsHandler msg st
      = ((rs.foldl (storeOne msg.Timestamp msg.Id) (st, 0)).1,
         LuaReply.receiptsStored (rs.foldl (storeOne msg.Timestamp msg.Id) (st, 0)).2
           ((rs.foldl (storeOne msg.Timestamp msg.Id) (st, 0)).1.ReceiptCount)) := by
  simp [storeReceiptsHandler, hfr, how, hrs]

/-- Claim C9: the ledger collaborator's `StoreReceipts` is idempotent and
append-only.  On the authorized, unfrozen path: every receipt id already
stored keeps exactly its old record; distinct keys stay distinct, so a
duplicate id in the batch creates no second record; the reply is a
`ReceiptsStored` success, never an error; and re-submitting the same batch
(in a second message) changes nothing and reports zero newly stored
receipts.  No other handler ever touches a stored receipt. -/
theorem claim_C9 (msg msg2 : LuaMsg) (st : LuaState) (rs : List IncomingReceipt)
    (hfr : st.Frozen = false) (how : isOwner msg.From st = true)
    (hrs : msg.receipts = some rs) :
    (∀ k v, mlookup st.Receipts k = some v →
      mlookup (storeReceiptsHandler msg st).1.Receipts k = some v) ∧
    ((st.Receipts.map Prod.fst).Nodup →
      (((storeReceiptsHandler msg st).1.Receipts).map Prod.fst).Nodup) ∧
    (∃ a b, (storeReceiptsHandler msg st).2 = LuaReply.receiptsStored a b) ∧
    (msg2.receipts = some rs → isOwner msg2.From st = true →
      storeReceiptsHandler msg2 (storeReceiptsHandler msg st).1
        = ((storeReceiptsHandler msg st).1,
           LuaReply.receiptsStored 0 ((storeReceiptsHandler msg st).1.ReceiptCount))) ∧
    (∀ m, (freezeHandler m st).1.Receipts = st.Receipts ∧
          (unfreezeHandler m st).1.Receipts = st.Receipts ∧
          (getReceiptHandler m st).1 = st ∧
          (listReceiptsHandler m st).1 = st ∧
          (verifyReceiptHandler m st).1 = st ∧
          (getStatsHandler m st).1 = st) := by
  have hH := storeReceiptsHandler_unfold msg st rs hfr how hrs
  refine ⟨?_, ?_, ?_, ?_, ?_⟩
  · intro k v hkv
    rw [hH]
    exact storeFold_mlookup_mono msg.Timestamp msg.Id rs (st, 0) k v hkv
  · intro hnd
    rw [hH]
    exact storeFold_nodup msg.Timestamp msg.Id rs (st, 0) hnd
  · rw [hH]
    exact ⟨_, _, rfl⟩
  · intro hrs2 how2
    have hfrozen1 : (rs.foldl (storeOne msg.Timestamp msg.Id) (st, 0)).1.Frozen = false := by
      rw [(storeFold_owner_frozen msg.Timestamp msg.Id rs (st, 0)).2]
      exact hfr
    have howner1 : isOwner msg2.From (rs.foldl (storeOne msg.Timestamp msg.Id) (st, 0)).1
        = true := by
      have hOwn := (storeFold_owner_frozen msg.Timestamp msg.Id rs (st, 0)).1
      unfold isOwner at how2 ⊢
      cases hm : msg2.From with
      | none => rw [hm] at how2; simp at how2
      | some f => rw [hm] at how2; rw [hOwn]; exact how2
    have hid2 : rs.foldl (storeOne msg2.Timestamp msg2.Id)
        ((rs.foldl (storeOne msg.Timestamp msg.Id) (st, 0)).1, 0)
        = ((rs.foldl (storeOne msg.Timestamp msg.Id) (st, 0)).1, 0) :=
      storeFold_of_all_present msg2.Timestamp msg2.Id rs _ 0
        (storeFold_all_present msg.Timestamp msg.Id rs (st, 0))
    rw [hH, storeReceiptsHandler_unfold msg2 _ rs hfrozen1 howner1 hrs2, hid2]
  · intro m
    refine ⟨?_, ?_, ?_, rfl, rfl, rfl⟩
    · unfold freezeHandler
      by_cases h : isOwner m.From st <;> simp [h]
    · unfold unfreezeHandler
      by_cases h : isOwner m.From st <;> simp [h]
    · unfold getReceiptHandler
      cases m.receiptIdArg with
      | none => rfl
      | some i =>
          dsimp only
          split
          · rfl
          · split <;> rfl

/-- An incoming receipt used in witnesses. -/
def inc1 : IncomingReceipt :=
  { receipt_id := some "r1", hash := some "h1", signature := some "s1",
    timestamp_ms := some 1, context_hash := some "ch", logic_summary := some "ls",
    action := some "act", agent_id := none }

/-- A stored record for `inc1` from an earlier message. -/
def stored1 : StoredReceipt := mkStored "r1" inc1 3 "m0"

/-- A ledger state already holding `stored1`. -/
def stW : LuaState := { Receipts := [("r1", stored1)], ReceiptCount := 1,
                        Owner := "own", Frozen := false }

/-- An authorized `StoreReceipts` message re-submitting `inc1`. -/
def msgW : LuaMsg := { From := some "own", Timestamp := 9, Id := "mid9",
                       receipts := some [inc1], receiptIdArg := none, limitArg := none }

/-- A second authorized message re-submitting the same batch. -/
def msgW2 : LuaMsg := { From := some "own", Timestamp := 10, Id := "mid10",
                        receipts := some [inc1], receiptIdArg := none, limitArg := none }

/-- Concrete instantiation of C9: re-submitting an already-stored id keeps
the original record, and the second submission stores nothing. -/
theorem claim_C9_witness :
    mlookup (storeReceiptsHandler msgW stW).1.Receipts "r1" = some stored1 ∧
    storeReceiptsHandler msgW2 (storeReceiptsHandler msgW stW).1
      = ((storeReceiptsHandler msgW stW).1,
         LuaReply.receiptsStored 0 ((storeReceiptsHandler msgW stW).1.ReceiptCount)) :=
  ⟨(claim_C9 msgW msgW2 stW [inc1] rfl (by decide) rfl).1 "r1" stored1 (by decide),
   (claim_C9 msgW msgW2 stW [inc1] rfl (by decide) rfl).2.2.2.1 rfl (by decide)⟩

/-- Claim C10: `State.ReceiptCount` always equals the number of receipt
ids stored in `State.Receipts`.  The initial state satisfies the
invariant; `StoreReceipts` preserves it, and its frozen-process and
non-owner rejection paths leave the state entirely unchanged; `Freeze`,
`Unfreeze` and the read-only query handlers preserve it as well. -/
theorem claim_C10 :
    (∀ owner, countInv (initialLuaState owner)) ∧
    (∀ msg st, countInv st → countInv (storeReceiptsHandler msg st).1) ∧
    (∀ msg st, st.Frozen = true →
      (storeReceiptsHandler msg st).1 = st ∧
      (storeReceiptsHandler msg st).2 = LuaReply.err "Process is frozen") ∧
    (∀ msg st, st.Frozen = false → isOwner msg.From st = false →
      (storeReceiptsHandler msg st).1 = st ∧
      (storeReceiptsHandler msg st).2 = LuaReply.err "Unauthorized: owner only") ∧
    (∀ msg st, countInv st → countInv (freezeHandler msg st).1) ∧
    (∀ msg st, countInv st → countInv (unfreezeHandler msg st).1) ∧
    (∀ msg st, (getReceiptHandler msg st).1 = st ∧ (listReceiptsHandler msg st).1 = st ∧
      (verifyReceiptHandler msg st).1 = st ∧ (getStatsHandler msg st).1 = st) := by
  refine ⟨?_, ?_, ?_, ?_, ?_, ?_, ?_⟩
  · intro owner
    exact ⟨rfl, List.nodup_nil⟩
  · intro msg st hinv
    unfold storeReceiptsHandler
    by_cases hf : st.Frozen
    · simp only [hf, if_true]
      exact hinv
    · by_cases ho : isOwner msg.From st
      · cases hr : msg.receipts with
        | none => simp only [hf, ho, hr, Bool.not_true, if_false]; exact hinv
        | some rs =>
            simp only [hf, ho, hr, Bool.not_true, if_false]
            exact storeFold_countInv msg.Timestamp msg.Id rs (st, 0) hinv
      · simp only [hf, eq_self_iff_true, if_false]
        have ho' : isOwner msg.From st = false := by
          cases hob : isOwner msg.From st with
          | false => rfl
          | true => exact absurd hob ho
        simp only [ho', Bool.not_false, if_true]
        exact hinv
  · intro msg st hf
    unfold storeReceiptsHandler
    rw [hf]
    exact ⟨rfl, rfl⟩
  · intro msg st hf ho
    unfold storeReceiptsHandler
    rw [hf, ho]
    exact ⟨rfl, rfl⟩
  · intro msg st hinv
    unfold freezeHandler
    by_cases h : isOwner msg.From st <;> simp only [h] <;> exact hinv
  · intro msg st hinv
    unfold unfreezeHandler
    by_cases h : isOwner msg.From st <;> simp only [h] <;> exact hinv
  · intro msg st
    refine ⟨?_, rfl, rfl, rfl⟩
    unfold getReceiptHandler
    cases msg.receiptIdArg with
    | none => rfl
    | some i =>
        dsimp only
        split
        · rfl
        · split <;> rfl

/-- Concrete instantiation of C10: storing a batch on the initial state
keeps the count equal to the number of stored ids. -/
theorem claim_C10_witness :
    countInv (storeReceiptsHandler msgW (initialLuaState "own")).1 :=
  claim_C10.2.1 msgW (initialLuaState "own") ⟨rfl, List.nodup_nil⟩

end Veritas
